import Mathlib

/-!
Shallow embedding of the Momentum habit tracker's core logic: the calendar
utilities, the scheduler (`src/utils/scheduling.ts`), and the scoring and
streak engine (`src/utils/grading.ts`).

Dates: the code passes local calendar days around as `YYYY-MM-DD` strings and
converts them to local-midnight `Date` values for arithmetic.  Well-formed
date strings are in bijection with day indices, so a date is embedded as its
day index (a `Nat`), chosen so that day 0 falls on a Sunday; the functions
below mirror the corresponding string functions under that bijection.
Task ids (opaque unique strings in the source) are embedded as `Nat`.

`Math.round((c / t) * 100)` on integers `0 ≤ c`, `0 < t` is embedded as the
exact rational rounding `⌊(200c + t) / (2t)⌋` (`roundRatio100`).
-/

namespace Momentum

/-- Day of week of a day index; day 0 is a Sunday.  Mirrors
`getDayOfWeek(dateString) = parseLocalDate(dateString).getDay()`. -/
def getDayOfWeek (d : Nat) : Nat := d % 7

/-- Mirrors `getWeekStart`: the Sunday on or before the given day
(`date.setDate(date.getDate() - day)` with `day = getDay()`). -/
def getWeekStart (d : Nat) : Nat := d - d % 7

/-- Mirrors `getWeekDates`: the 7 consecutive days starting at the week start. -/
def getWeekDates (weekStartDate : Nat) : List Nat :=
  (List.range 7).map (fun i => weekStartDate + i)

/-- Mirrors `daysBetween`: `Math.floor(|t2 - t1| / msPerDay)`, i.e. the
absolute difference of the two day indices. -/
def daysBetween (dateString1 dateString2 : Nat) : Nat :=
  max dateString1 dateString2 - min dateString1 dateString2

/-- Mirrors `isNextDay(date1, date2)`: the signed difference `date2 - date1`
in days equals 1. -/
def isNextDay (date1 date2 : Nat) : Bool := date2 == date1 + 1

/-- `TaskKind` from `src/data/types.ts`. -/
inductive TaskKind
  | habit
  | chore
  | custom
deriving DecidableEq

/-- `ScheduleType` from `src/data/types.ts`. -/
inductive ScheduleType
  | daily
  | weekdays
  | timesPerWeek
  | everyNDays
deriving DecidableEq

/-- `TaskSchedule` from `src/data/types.ts`: a `type` tag plus optional
fields (all optional in the source object type). -/
structure TaskSchedule where
  type : ScheduleType
  weekdays : Option (List Nat) := none
  timesPerWeek : Option Nat := none
  everyNDays : Option Int := none
deriving DecidableEq

/-- `Task` from `src/data/types.ts`.  `createdAt` is an ISO timestamp in the
source; the scheduler only ever uses `getLocalDateString(new Date(createdAt))`,
so it is embedded directly as the local day index of that timestamp. -/
structure Task where
  id : Nat
  name : String
  kind : TaskKind
  schedule : TaskSchedule
  targetPerDay : Nat
  createdAt : Nat
  archived : Bool
  focus : Option Bool := none
deriving DecidableEq

/-- Truthiness of the optional `task.focus` field (`undefined` is falsy). -/
def Task.isFocus (t : Task) : Bool := t.focus.getD false

/-- `CompletionLog` from `src/data/types.ts` (the `timestamps` field is not
consulted by any of the scoring or scheduling code). -/
structure CompletionLog where
  id : Nat
  taskId : Nat
  date : Nat
  countCompleted : Nat
deriving DecidableEq

/-- `Grade` from `src/data/types.ts`. -/
inductive Grade
  | A
  | B
  | C
  | D
  | F
deriving DecidableEq

/-- `gradeForPercent` from `src/utils/grading.ts`. -/
def gradeForPercent (percent : Nat) : Grade :=
  if 90 ≤ percent then .A
  else if 80 ≤ percent then .B
  else if 70 ≤ percent then .C
  else if 60 ≤ percent then .D
  else .F

/-- `isPassingGrade` from `src/utils/grading.ts`. -/
def isPassingGrade (grade : Grade) : Bool :=
  grade == .A || grade == .B || grade == .C

/-- Exact embedding of `Math.round((num / den) * 100)` for integers
`0 ≤ num`, `0 < den`: `⌊(200·num + den) / (2·den)⌋`. -/
def roundRatio100 (num den : Nat) : Nat := (200 * num + den) / (2 * den)

/-! ### Scheduler (`src/utils/scheduling.ts`) -/

/-- `isEveryNDaysScheduled`: `daysBetween(createdDate, dateString) % everyNDays === 0`.
JavaScript `%` on a nonnegative dividend: for `n ≠ 0` the truncated remainder
equals `days mod |n|`; for `n = 0` the result is `NaN`, and `NaN === 0` is
false. -/
def isEveryNDaysScheduled (task : Task) (dateString : Nat) (everyNDays : Int) : Bool :=
  if everyNDays = 0 then false
  else decide (daysBetween task.createdAt dateString % everyNDays.natAbs = 0)

/-- `isTaskScheduledForDate` from `src/utils/scheduling.ts`. -/
def isTaskScheduledForDate (task : Task) (dateString : Nat) : Bool :=
  if task.archived then false
  else
    match task.schedule.type with
    | .daily => true
    | .weekdays =>
        match task.schedule.weekdays with
        | some ds => ds.contains (getDayOfWeek dateString)
        | none => false
    | .timesPerWeek => true
    | .everyNDays => isEveryNDaysScheduled task dateString (task.schedule.everyNDays.getD 1)

/-- `getScheduledTasksForDate` from `src/utils/scheduling.ts`. -/
def getScheduledTasksForDate (tasks : List Task) (dateString : Nat) : List Task :=
  tasks.filter (fun task => isTaskScheduledForDate task dateString)

/-- `isTaskCompleteForDate` from `src/utils/scheduling.ts` (its `dateString`
parameter is unused in the source). -/
def isTaskCompleteForDate (task : Task) (completion : Option CompletionLog) : Bool :=
  match completion with
  | none => false
  | some c => decide (task.targetPerDay ≤ c.countCompleted)

/-! ### Completion lookup (`buildCompletionMap` in `src/utils/grading.ts`)

The map is built with `map.set(taskId + ":" + date, c)` over the completion
list, so a later entry for the same key overwrites an earlier one; a fold
with overwrite reproduces `map.get`. -/

/-- Lookup of the completion record for a `(taskId, date)` pair; the last
matching record in the list wins, as with `Map.set` followed by `Map.get`. -/
def completionFor (completions : List CompletionLog) (taskId date : Nat) : Option CompletionLog :=
  completions.foldl
    (fun acc c => if c.taskId = taskId ∧ c.date = date then some c else acc) none

/-- `completion?.countCompleted ?? 0` for the looked-up record. -/
def completedCountOn (completions : List CompletionLog) (task : Task) (date : Nat) : Nat :=
  match completionFor completions task.id date with
  | some c => c.countCompleted
  | none => 0

/-- `Math.min(completion?.countCompleted ?? 0, task.targetPerDay)`. -/
def clampedCount (completions : List CompletionLog) (task : Task) (date : Nat) : Nat :=
  min (completedCountOn completions task date) task.targetPerDay

/-- `isTaskCompleteForDate(task, completionMap.get(key), dateString)` as used
by the grading code. -/
def taskCompleteOn (completions : List CompletionLog) (task : Task) (date : Nat) : Bool :=
  isTaskCompleteForDate task (completionFor completions task.id date)

/-! ### Scoring engine (`src/utils/grading.ts`) -/

/-- `calculateMomentumScore` from `src/utils/grading.ts`; the source's single
loop accumulates `totalTarget` and `totalCompleted`, embedded as two folds. -/
def calculateMomentumScore (tasks : List Task) (completions : List CompletionLog)
    (dateString : Nat) : Nat :=
  let scheduledTasks := getScheduledTasksForDate tasks dateString
  if scheduledTasks.isEmpty then 100
  else
    let totalTarget := scheduledTasks.foldl (fun acc task => acc + task.targetPerDay) 0
    let totalCompleted :=
      scheduledTasks.foldl (fun acc task => acc + clampedCount completions task dateString) 0
    if totalTarget = 0 then 100
    else roundRatio100 totalCompleted totalTarget

/-- `calculateDayCompletionPercent` from `src/utils/grading.ts`. -/
def calculateDayCompletionPercent (tasks : List Task) (completions : List CompletionLog)
    (dateString : Nat) : Nat :=
  calculateMomentumScore tasks completions dateString

/-- `DayStats` from `src/data/types.ts`. -/
structure DayStats where
  date : Nat
  totalTasks : Nat
  completedTasks : Nat
  percentage : Nat
  grade : Grade
  totalTarget : Nat
  totalCompleted : Nat
  focusTasksCompleted : Nat
  focusTasksTotal : Nat
  wins : List String
deriving DecidableEq

/-- `getDayStats` from `src/utils/grading.ts`; the source's single loop
carries independent accumulators (no accumulator reads another), embedded as
one list traversal per field. -/
def getDayStats (tasks : List Task) (completions : List CompletionLog)
    (dateString : Nat) : DayStats :=
  let scheduledTasks := getScheduledTasksForDate tasks dateString
  let totalTarget := (scheduledTasks.map (fun task => task.targetPerDay)).sum
  let totalCompleted := (scheduledTasks.map (fun task => clampedCount completions task dateString)).sum
  let completedList := scheduledTasks.filter (fun task => taskCompleteOn completions task dateString)
  let percentage := if 0 < totalTarget then roundRatio100 totalCompleted totalTarget else 100
  { date := dateString
    totalTasks := scheduledTasks.length
    completedTasks := completedList.length
    percentage := percentage
    grade := gradeForPercent percentage
    totalTarget := totalTarget
    totalCompleted := totalCompleted
    focusTasksCompleted :=
      (scheduledTasks.filter (fun task => task.isFocus && taskCompleteOn completions task dateString)).length
    focusTasksTotal := (scheduledTasks.filter (fun task => task.isFocus)).length
    wins := completedList.map (fun task => task.name) }

/-- `WeekStats` from `src/data/types.ts`. -/
structure WeekStats where
  weekStartDate : Nat
  totalTasks : Nat
  completedTasks : Nat
  percentage : Nat
  grade : Grade
  dailyStats : List DayStats
  trendVsLastWeek : Int
  consistencyDays : Nat
  perfectDays : Nat
deriving DecidableEq

/-- `getWeekStats` from `src/utils/grading.ts`. -/
def getWeekStats (tasks : List Task) (completions : List CompletionLog)
    (weekStartDate : Nat) (previousWeekStats : Option WeekStats) : WeekStats :=
  let weekDates := getWeekDates weekStartDate
  let dailyStats := weekDates.map (fun date => getDayStats tasks completions date)
  let totalTasks := dailyStats.foldl (fun sum day => sum + day.totalTasks) 0
  let completedTasks := dailyStats.foldl (fun sum day => sum + day.completedTasks) 0
  let percentage := if 0 < totalTasks then roundRatio100 completedTasks totalTasks else 100
  let trendVsLastWeek : Int :=
    match previousWeekStats with
    | some prev => (percentage : Int) - (prev.percentage : Int)
    | none => 0
  let consistencyDays :=
    (dailyStats.filter (fun day =>
      if 0 < day.focusTasksTotal then decide (0 < day.focusTasksCompleted)
      else decide (0 < day.completedTasks))).length
  let perfectDays :=
    (dailyStats.filter (fun day => day.percentage == 100 && decide (0 < day.totalTasks))).length
  { weekStartDate := weekStartDate
    totalTasks := totalTasks
    completedTasks := completedTasks
    percentage := percentage
    grade := gradeForPercent percentage
    dailyStats := dailyStats
    trendVsLastWeek := trendVsLastWeek
    consistencyDays := consistencyDays
    perfectDays := perfectDays }

/-! ### Next-action recommender (`getNextBestAction` in `src/utils/grading.ts`) -/

/-- `a.targetPerDay - (aCompletion?.countCompleted ?? 0)` — the unclamped
remaining count used by the comparator (it may be negative). -/
def remainingCount (completions : List CompletionLog) (task : Task) (date : Nat) : Int :=
  (task.targetPerDay : Int) - (completedCountOn completions task date : Int)

/-- The comparator passed to `incompleteTasks.sort` in `getNextBestAction`:
focus first, then fewer remaining, then chore-kind first. -/
def nbaCompare (completions : List CompletionLog) (date : Nat) (a b : Task) : Int :=
  if a.isFocus && !b.isFocus then -1
  else if !a.isFocus && b.isFocus then 1
  else
    let aRemaining := remainingCount completions a date
    let bRemaining := remainingCount completions b date
    if aRemaining ≠ bRemaining then aRemaining - bRemaining
    else if a.kind = .chore ∧ b.kind ≠ .chore then -1
    else if a.kind ≠ .chore ∧ b.kind = .chore then 1
    else 0

/-- Stable insertion of an element in front of the first existing element it
is `le`-before-or-equal to. -/
def insertSorted (le : α → α → Bool) (x : α) : List α → List α
  | [] => [x]
  | y :: ys => if le x y then x :: y :: ys else y :: insertSorted le x ys

/-- `Array.prototype.sort(comparator)`: ES2019 requires a stable sort, whose
output on a consistent comparator is the unique stably sorted order; stable
insertion sort (with `le x y := comparator x y ≤ 0`) computes that order. -/
def jsStableSort (le : α → α → Bool) : List α → List α
  | [] => []
  | x :: xs => insertSorted le x (jsStableSort le xs)

/-- `getNextBestAction` from `src/utils/grading.ts`. -/
def getNextBestAction (tasks : List Task) (completions : List CompletionLog)
    (dateString : Nat) : Option Task :=
  let scheduledTasks := getScheduledTasksForDate tasks dateString
  let incompleteTasks :=
    scheduledTasks.filter (fun task => !(taskCompleteOn completions task dateString))
  if incompleteTasks.isEmpty then none
  else (jsStableSort (fun a b => decide (nbaCompare completions dateString a b ≤ 0)) incompleteTasks).head?

/-! ### Streak engine (`src/utils/grading.ts`) -/

/-- `StreakState` from `src/data/types.ts`.  `graceDayWeekStart` is a date
string or the initial `''` sentinel in the source, embedded as `Option Nat`
with `none` for `''` (the sentinel compares unequal to every date string). -/
structure StreakState where
  consistencyStreak : Nat
  lastConsistencyDate : Option Nat
  perfectStreak : Nat
  lastPerfectDate : Option Nat
  graceDaysUsedThisWeek : Nat
  graceDayWeekStart : Option Nat
  bestConsistencyStreak : Nat
  bestPerfectStreak : Nat
deriving DecidableEq

/-- The `'consistency' | 'perfect'` literal union. -/
inductive StreakType
  | consistency
  | perfect
deriving DecidableEq

/-- The record returned by `updateStreakState`. -/
structure StreakUpdate where
  streaks : StreakState
  showGraceDayPrompt : Bool
  streakType : Option StreakType
deriving DecidableEq

/-- The `isConsistent` predicate computed by `updateStreakState` from
`getDayStats`: at least one focus task done, or any task if none are focus. -/
def isConsistentDay (tasks : List Task) (completions : List CompletionLog)
    (todayDate : Nat) : Bool :=
  let stats := getDayStats tasks completions todayDate
  if 0 < stats.focusTasksTotal then decide (0 < stats.focusTasksCompleted)
  else decide (0 < stats.completedTasks)

/-- The `isPerfect` predicate computed by `updateStreakState`:
`stats.percentage === 100 && stats.totalTasks > 0`. -/
def isPerfectDay (tasks : List Task) (completions : List CompletionLog)
    (todayDate : Nat) : Bool :=
  let stats := getDayStats tasks completions todayDate
  stats.percentage == 100 && decide (0 < stats.totalTasks)

/-- The four mutable locals a streak branch of `updateStreakState` writes:
the streak counter, its last-pass date, and the prompt flag/type. -/
structure StreakBranch where
  streak : Nat
  lastDate : Option Nat
  prompt : Bool
  stype : Option StreakType
deriving DecidableEq

/-- The consistency-streak branch of `updateStreakState` (the
`if (isConsistent) { ... }` block), with `graceUsed` the budget after the
new-week reset.  Note that the gap branch assigns
`lastConsistencyDate = todayDate` whether or not the grace prompt fires. -/
def consistencyUpdate (s : StreakState) (graceUsed : Nat) (isConsistent : Bool)
    (todayDate : Nat) : StreakBranch :=
  if isConsistent then
    match s.lastConsistencyDate with
    | none => ⟨s.consistencyStreak + 1, some todayDate, false, none⟩
    | some last =>
        if isNextDay last todayDate || last == todayDate then
          ⟨if last == todayDate then s.consistencyStreak else s.consistencyStreak + 1,
           some todayDate, false, none⟩
        else if graceUsed < 1 ∧ 0 < s.consistencyStreak then
          ⟨s.consistencyStreak, some todayDate, true, some .consistency⟩
        else
          ⟨1, some todayDate, false, none⟩
  else ⟨s.consistencyStreak, s.lastConsistencyDate, false, none⟩

/-- The perfect-streak branch of `updateStreakState` (the
`if (isPerfect) ... else if (lastPerfectDate !== todayDate) ...` block);
`prompt1`/`stype1` are the flag and type left by the consistency branch.
The not-perfect path only ever sets the prompt (guarded by `!prompt1`) and
never touches the perfect streak counter or its last date. -/
def perfectUpdate (s : StreakState) (graceUsed : Nat) (isPerfect prompt1 : Bool)
    (stype1 : Option StreakType) (todayDate : Nat) : StreakBranch :=
  if isPerfect then
    match s.lastPerfectDate with
    | none => ⟨s.perfectStreak + 1, some todayDate, prompt1, stype1⟩
    | some last =>
        if isNextDay last todayDate || last == todayDate then
          ⟨if last == todayDate then s.perfectStreak else s.perfectStreak + 1,
           some todayDate, prompt1, stype1⟩
        else ⟨1, some todayDate, prompt1, stype1⟩
  else
    match s.lastPerfectDate with
    | some last =>
        if last ≠ todayDate ∧ isNextDay last todayDate = false
            ∧ graceUsed < 1 ∧ 0 < s.perfectStreak ∧ prompt1 = false then
          ⟨s.perfectStreak, s.lastPerfectDate, true, some .perfect⟩
        else ⟨s.perfectStreak, s.lastPerfectDate, prompt1, stype1⟩
    | none => ⟨s.perfectStreak, s.lastPerfectDate, prompt1, stype1⟩

/-- The `graceDaysUsedThisWeek` local of `updateStreakState` after its
new-week reset (`if (graceDayWeekStart !== weekStart) graceDaysUsedThisWeek = 0`). -/
def graceAfterReset (currentStreaks : StreakState) (todayDate : Nat) : Nat :=
  if currentStreaks.graceDayWeekStart ≠ some (getWeekStart todayDate) then 0
  else currentStreaks.graceDaysUsedThisWeek

/-- The `graceDayWeekStart` local of `updateStreakState` after its new-week
reset. -/
def weekStartAfterReset (currentStreaks : StreakState) (todayDate : Nat) : Option Nat :=
  if currentStreaks.graceDayWeekStart ≠ some (getWeekStart todayDate) then
    some (getWeekStart todayDate)
  else currentStreaks.graceDayWeekStart

/-- `updateStreakState` from `src/utils/grading.ts`. -/
def updateStreakState (currentStreaks : StreakState) (tasks : List Task)
    (completions : List CompletionLog) (todayDate : Nat) : StreakUpdate :=
  let graceDaysUsedThisWeek := graceAfterReset currentStreaks todayDate
  let graceDayWeekStart := weekStartAfterReset currentStreaks todayDate
  let c := consistencyUpdate currentStreaks graceDaysUsedThisWeek
    (isConsistentDay tasks completions todayDate) todayDate
  let p := perfectUpdate currentStreaks graceDaysUsedThisWeek
    (isPerfectDay tasks completions todayDate) c.prompt c.stype todayDate
  { streaks :=
      { consistencyStreak := c.streak
        lastConsistencyDate := c.lastDate
        perfectStreak := p.streak
        lastPerfectDate := p.lastDate
        graceDaysUsedThisWeek := graceDaysUsedThisWeek
        graceDayWeekStart := graceDayWeekStart
        bestConsistencyStreak := max currentStreaks.bestConsistencyStreak c.streak
        bestPerfectStreak := max currentStreaks.bestPerfectStreak p.streak }
    showGraceDayPrompt := p.prompt
    streakType := p.stype }

/-- `applyGraceDay` from `src/utils/grading.ts`. -/
def applyGraceDay (currentStreaks : StreakState) (streakType : StreakType)
    (todayDate : Nat) : StreakState :=
  { currentStreaks with
    graceDaysUsedThisWeek := currentStreaks.graceDaysUsedThisWeek + 1
    lastConsistencyDate :=
      if streakType = .consistency then some todayDate else currentStreaks.lastConsistencyDate
    lastPerfectDate :=
      if streakType = .perfect then some todayDate else currentStreaks.lastPerfectDate }

/-! ### Claim-side (spec-side) definitions -/

/-- The momentum-score algorithm exactly as the spec words it: sum of
`targetPerDay` over scheduled tasks, sum of clamped completions, with the
empty-day and zero-target fallbacks to 100. -/
def momentumScoreSpec (tasks : List Task) (completions : List CompletionLog)
    (dateString : Nat) : Nat :=
  let scheduled := getScheduledTasksForDate tasks dateString
  if scheduled = [] then 100
  else
    let totalTarget := (scheduled.map (fun t => t.targetPerDay)).sum
    let totalCompleted :=
      (scheduled.map (fun t => min (completedCountOn completions t dateString) t.targetPerDay)).sum
    if totalTarget = 0 then 100 else roundRatio100 totalCompleted totalTarget

/-- Sum of per-task `targetPerDay` over the scheduled tasks of the 7 week
days — the `Σtarget` of the weekly-percentage claim. -/
def weekTargetSum (tasks : List Task) (w : Nat) : Nat :=
  ((getWeekDates w).map
    (fun d => ((getScheduledTasksForDate tasks d).map (fun t => t.targetPerDay)).sum)).sum

/-- Sum of per-task clamped completions over the scheduled tasks of the 7
week days — the `Σcompleted` of the weekly-percentage claim. -/
def weekClampedSum (tasks : List Task) (completions : List CompletionLog) (w : Nat) : Nat :=
  ((getWeekDates w).map
    (fun d => ((getScheduledTasksForDate tasks d).map (fun t => clampedCount completions t d)).sum)).sum

/-- Number of scheduled task instances across the 7 week days (what the code
actually aggregates as `totalTasks`). -/
def weekScheduledCount (tasks : List Task) (w : Nat) : Nat :=
  ((getWeekDates w).map (fun d => (getScheduledTasksForDate tasks d).length)).sum

/-- Number of scheduled task instances meeting their target across the 7
week days (what the code actually aggregates as `completedTasks`). -/
def weekFullyCompletedCount (tasks : List Task) (completions : List CompletionLog) (w : Nat) : Nat :=
  ((getWeekDates w).map
    (fun d => ((getScheduledTasksForDate tasks d).filter (fun t => taskCompleteOn completions t d)).length)).sum

/-! ### Helper lemmas -/

theorem foldl_add_eq_sum (f : α → Nat) (l : List α) (init : Nat) :
    l.foldl (fun acc x => acc + f x) init = init + (l.map f).sum := by
  induction l generalizing init with
  | nil => simp
  | cons x xs ih => simp [ih, Nat.add_assoc]

theorem getDayStats_totalTasks (tasks : List Task) (completions : List CompletionLog) (d : Nat) :
    (getDayStats tasks completions d).totalTasks = (getScheduledTasksForDate tasks d).length := rfl

theorem getDayStats_completedTasks (tasks : List Task) (completions : List CompletionLog) (d : Nat) :
    (getDayStats tasks completions d).completedTasks
      = ((getScheduledTasksForDate tasks d).filter (fun t => taskCompleteOn completions t d)).length := rfl

theorem getWeekStats_totalTasks (tasks : List Task) (completions : List CompletionLog)
    (w : Nat) (prev : Option WeekStats) :
    (getWeekStats tasks completions w prev).totalTasks = weekScheduledCount tasks w := by
  show ((getWeekDates w).map (fun date => getDayStats tasks completions date)).foldl
      (fun sum day => sum + day.totalTasks) 0 = _
  rw [foldl_add_eq_sum]
  simp [weekScheduledCount, List.map_map, Function.comp_def, getDayStats_totalTasks]

theorem getWeekStats_completedTasks (tasks : List Task) (completions : List CompletionLog)
    (w : Nat) (prev : Option WeekStats) :
    (getWeekStats tasks completions w prev).completedTasks
      = weekFullyCompletedCount tasks completions w := by
  show ((getWeekDates w).map (fun date => getDayStats tasks completions date)).foldl
      (fun sum day => sum + day.completedTasks) 0 = _
  rw [foldl_add_eq_sum]
  simp [weekFullyCompletedCount, List.map_map, Function.comp_def, getDayStats_completedTasks]

theorem getWeekStats_percentage_proj (tasks : List Task) (completions : List CompletionLog)
    (w : Nat) (prev : Option WeekStats) :
    (getWeekStats tasks completions w prev).percentage
      = if 0 < (getWeekStats tasks completions w prev).totalTasks then
          roundRatio100 (getWeekStats tasks completions w prev).completedTasks
            (getWeekStats tasks completions w prev).totalTasks
        else 100 := rfl

/-! ### C9 -/

/-- C9: `calculateDayCompletionPercent` is an alias of
`calculateMomentumScore`: they agree on every task list, completion list and
date. -/
theorem dayCompletionPercent_alias (tasks : List Task) (completions : List CompletionLog)
    (d : Nat) :
    calculateDayCompletionPercent tasks completions d
      = calculateMomentumScore tasks completions d := rfl

/-! ### C3 -/

/-- Sample tasks for the `momentumScore == 75` scenario. -/
def mTask1 : Task :=
  { id := 1, name := "a", kind := .habit, schedule := { type := .daily },
    targetPerDay := 2, createdAt := 0, archived := false }

def mTask2 : Task :=
  { id := 2, name := "b", kind := .habit, schedule := { type := .daily },
    targetPerDay := 2, createdAt := 0, archived := false }

def mComp1 : CompletionLog := { id := 0, taskId := 1, date := 0, countCompleted := 2 }

def mComp2 : CompletionLog := { id := 1, taskId := 2, date := 0, countCompleted := 1 }

/-- C3: `calculateMomentumScore` returns 100 when no task is scheduled, and
otherwise `round(100 * totalCompleted / totalTarget)` with per-task
completions clamped at `targetPerDay` (100 when `totalTarget = 0`), as
captured by `momentumScoreSpec`; in particular two scheduled tasks with
`targetPerDay = 2` and completion counts 2 and 1 score 75. -/
theorem calculateMomentumScore_ok :
    (∀ (tasks : List Task) (completions : List CompletionLog) (d : Nat),
      calculateMomentumScore tasks completions d = momentumScoreSpec tasks completions d) ∧
    calculateMomentumScore [mTask1, mTask2] [mComp1, mComp2] 0 = 75 := by
  constructor
  · intro tasks completions d
    unfold calculateMomentumScore momentumScoreSpec
    rcases h : getScheduledTasksForDate tasks d with _ | ⟨x, xs⟩ <;>
      simp [h, clampedCount, foldl_add_eq_sum]
  · decide

/-! ### C2 -/

/-- A live task whose schedule is `everyNDays(0)`. -/
def zeroEveryTask : Task :=
  { id := 5, name := "z", kind := .habit,
    schedule := { type := .everyNDays, everyNDays := some 0 },
    targetPerDay := 1, createdAt := 0, archived := false }

/-- A live task whose schedule is `everyNDays(-2)`. -/
def negEveryTask : Task :=
  { id := 6, name := "n", kind := .habit,
    schedule := { type := .everyNDays, everyNDays := some (-2) },
    targetPerDay := 1, createdAt := 0, archived := false }

/-- C2 counterexample: a non-archived `everyNDays(0)` task is NOT scheduled
on its own creation date (JavaScript `days % 0` is `NaN`, which is not 0), so
`n ≤ 0` is not treated as always-due. -/
theorem everyNDays_zero_counterexample :
    zeroEveryTask.archived = false ∧
    zeroEveryTask.schedule.everyNDays = some 0 ∧
    isTaskScheduledForDate zeroEveryTask 0 = false := by
  refine ⟨rfl, rfl, ?_⟩
  decide

/-- C2 amended: for a non-archived `everyNDays(n)` task, `n = 0` yields
false on every date (never due), and `n ≠ 0` (positive or negative) yields
true iff `daysBetween(creation, date) mod |n| = 0`. -/
theorem everyNDays_amended (t : Task) (d : Nat) (n : Int)
    (harch : t.archived = false) (htype : t.schedule.type = .everyNDays)
    (hn : t.schedule.everyNDays = some n) :
    isTaskScheduledForDate t d =
      if n = 0 then false
      else decide (daysBetween t.createdAt d % n.natAbs = 0) := by
  simp [isTaskScheduledForDate, harch, htype, hn, isEveryNDaysScheduled]

/-- C2 amended, instantiated: `everyNDays(0)` never due; `everyNDays(-2)` due
exactly on even day gaps. -/
theorem everyNDays_amended_witness :
    isTaskScheduledForDate zeroEveryTask 7 = false ∧
    isTaskScheduledForDate negEveryTask 4 = true ∧
    isTaskScheduledForDate negEveryTask 3 = false := by
  refine ⟨?_, ?_, ?_⟩
  · rw [everyNDays_amended zeroEveryTask 7 0 rfl rfl rfl]; decide
  · rw [everyNDays_amended negEveryTask 4 (-2) rfl rfl rfl]; decide
  · rw [everyNDays_amended negEveryTask 3 (-2) rfl rfl rfl]; decide

/-! ### C8 -/

/-- C8: archived tasks are never scheduled; a weekdays task is scheduled iff
the date's weekday is in its set (empty or missing set: never); daily and
times-per-week tasks are scheduled every day. -/
theorem isTaskScheduledForDate_cases (t : Task) (d : Nat) :
    (t.archived = true → isTaskScheduledForDate t d = false) ∧
    (t.archived = false → t.schedule.type = .weekdays →
      isTaskScheduledForDate t d = (t.schedule.weekdays.getD []).contains (getDayOfWeek d)) ∧
    (t.archived = false → t.schedule.type = .weekdays → t.schedule.weekdays.getD [] = [] →
      isTaskScheduledForDate t d = false) ∧
    (t.archived = false → t.schedule.type = .daily → isTaskScheduledForDate t d = true) ∧
    (t.archived = false → t.schedule.type = .timesPerWeek → isTaskScheduledForDate t d = true) := by
  refine ⟨fun h => by simp [isTaskScheduledForDate, h], ?_, ?_, ?_, ?_⟩
  · intro h ht
    rcases hw : t.schedule.weekdays with _ | ds <;>
      simp [isTaskScheduledForDate, h, ht, hw]
  · intro h ht hw
    rcases hw' : t.schedule.weekdays with _ | ds <;>
      simp_all [isTaskScheduledForDate, h, ht]
  · intro h ht
    simp [isTaskScheduledForDate, h, ht]
  · intro h ht
    simp [isTaskScheduledForDate, h, ht]

/-- A Monday/Wednesday/Friday weekdays task. -/
def wdTask : Task :=
  { id := 0, name := "mwf", kind := .habit,
    schedule := { type := .weekdays, weekdays := some [1, 3, 5] },
    targetPerDay := 1, createdAt := 0, archived := false }

/-- The same task, archived. -/
def archTask : Task := { wdTask with archived := true }

/-- A weekdays task with an empty weekday set. -/
def emptyWdTask : Task :=
  { wdTask with schedule := { type := .weekdays, weekdays := some ([] : List Nat) } }

/-- A daily task. -/
def dailySample : Task := { wdTask with schedule := { type := .daily } }

/-- A 3-times-per-week task. -/
def tpwSample : Task :=
  { wdTask with schedule := { type := .timesPerWeek, timesPerWeek := some 3 } }

/-- C8 instantiated: the archived task is not due on a Monday; the
`[1,3,5]` task is due Monday/Wednesday/Friday and not Tuesday/Sunday; the
empty-set task is never due; daily and times-per-week tasks are due any day.
(Days 0..6 are Sunday..Saturday.) -/
theorem isTaskScheduledForDate_cases_witness :
    isTaskScheduledForDate archTask 1 = false ∧
    isTaskScheduledForDate wdTask 1 = true ∧
    isTaskScheduledForDate wdTask 3 = true ∧
    isTaskScheduledForDate wdTask 5 = true ∧
    isTaskScheduledForDate wdTask 2 = false ∧
    isTaskScheduledForDate wdTask 0 = false ∧
    isTaskScheduledForDate emptyWdTask 4 = false ∧
    isTaskScheduledForDate dailySample 9 = true ∧
    isTaskScheduledForDate tpwSample 9 = true := by
  refine ⟨(isTaskScheduledForDate_cases archTask 1).1 rfl, ?_, ?_, ?_, ?_, ?_, ?_, ?_, ?_⟩
  · rw [(isTaskScheduledForDate_cases wdTask 1).2.1 rfl rfl]; decide
  · rw [(isTaskScheduledForDate_cases wdTask 3).2.1 rfl rfl]; decide
  · rw [(isTaskScheduledForDate_cases wdTask 5).2.1 rfl rfl]; decide
  · rw [(isTaskScheduledForDate_cases wdTask 2).2.1 rfl rfl]; decide
  · rw [(isTaskScheduledForDate_cases wdTask 0).2.1 rfl rfl]; decide
  · exact (isTaskScheduledForDate_cases emptyWdTask 4).2.2.1 rfl rfl rfl
  · exact (isTaskScheduledForDate_cases dailySample 9).2.2.2.1 rfl rfl
  · exact (isTaskScheduledForDate_cases tpwSample 9).2.2.2.2 rfl rfl

/-! ### C1 -/

/-- A daily task with `targetPerDay = 2`, for the weekly-percentage
counterexample. -/
def cTask : Task :=
  { id := 9, name := "wk", kind := .habit, schedule := { type := .daily },
    targetPerDay := 2, createdAt := 0, archived := false }

/-- One completion of 1 (of 2) on the first week day. -/
def cComp : CompletionLog := { id := 0, taskId := 9, date := 0, countCompleted := 1 }

/-- C1 counterexample: for one daily task with target 2 and a single
completion of count 1, the claimed formula `round(100·Σcompleted/Σtarget)`
gives `round(100·1/14) = 7`, but `getWeekStats` returns percentage 0 (it
divides fully-completed task counts by scheduled task counts). -/
theorem weekStats_percentage_counterexample :
    weekTargetSum [cTask] 0 = 14 ∧
    weekClampedSum [cTask] [cComp] 0 = 1 ∧
    roundRatio100 (weekClampedSum [cTask] [cComp] 0) (weekTargetSum [cTask] 0) = 7 ∧
    (getWeekStats [cTask] [cComp] 0 none).percentage = 0 := by
  refine ⟨?_, ?_, ?_, ?_⟩ <;> decide

/-- C1 amended: `getWeekStats` percentage is
`round(100 · completedTasks / totalTasks)` where `totalTasks` counts
scheduled task instances over the 7 days and `completedTasks` counts those
meeting their target (100 when `totalTasks = 0`); and `trendVsLastWeek` is
the percentage minus the previous week's percentage when one is supplied,
else 0. -/
theorem weekStats_percentage_amended (tasks : List Task) (completions : List CompletionLog)
    (w : Nat) (prev : Option WeekStats) :
    ((getWeekStats tasks completions w prev).percentage =
      if 0 < weekScheduledCount tasks w then
        roundRatio100 (weekFullyCompletedCount tasks completions w) (weekScheduledCount tasks w)
      else 100) ∧
    ((getWeekStats tasks completions w prev).trendVsLastWeek =
      match prev with
      | some p => ((getWeekStats tasks completions w prev).percentage : Int) - (p.percentage : Int)
      | none => 0) := by
  constructor
  · rw [getWeekStats_percentage_proj, getWeekStats_totalTasks, getWeekStats_completedTasks]
  · cases prev <;> rfl

/-! ### C6 -/

/-- C6: after every `updateStreakState` evaluation the two best-streak
fields equal `max(previous best, new current streak)`, hence never
decrease. -/
theorem bestStreaks_max (s : StreakState) (tasks : List Task)
    (completions : List CompletionLog) (d : Nat) :
    ((updateStreakState s tasks completions d).streaks.bestConsistencyStreak
        = max s.bestConsistencyStreak
            (updateStreakState s tasks completions d).streaks.consistencyStreak) ∧
    ((updateStreakState s tasks completions d).streaks.bestPerfectStreak
        = max s.bestPerfectStreak
            (updateStreakState s tasks completions d).streaks.perfectStreak) ∧
    s.bestConsistencyStreak ≤ (updateStreakState s tasks completions d).streaks.bestConsistencyStreak ∧
    s.bestPerfectStreak ≤ (updateStreakState s tasks completions d).streaks.bestPerfectStreak :=
  ⟨rfl, rfl, Nat.le_max_left _ _, Nat.le_max_left _ _⟩

/-! ### Streak-engine helper lemmas -/

theorem updateStreakState_prompt (s : StreakState) (tasks : List Task)
    (completions : List CompletionLog) (D : Nat) :
    (updateStreakState s tasks completions D).showGraceDayPrompt
      = (perfectUpdate s (graceAfterReset s D) (isPerfectDay tasks completions D)
          (consistencyUpdate s (graceAfterReset s D) (isConsistentDay tasks completions D) D).prompt
          (consistencyUpdate s (graceAfterReset s D) (isConsistentDay tasks completions D) D).stype
          D).prompt := rfl

theorem updateStreakState_stype (s : StreakState) (tasks : List Task)
    (completions : List CompletionLog) (D : Nat) :
    (updateStreakState s tasks completions D).streakType
      = (perfectUpdate s (graceAfterReset s D) (isPerfectDay tasks completions D)
          (consistencyUpdate s (graceAfterReset s D) (isConsistentDay tasks completions D) D).prompt
          (consistencyUpdate s (graceAfterReset s D) (isConsistentDay tasks completions D) D).stype
          D).stype := rfl

theorem updateStreakState_consistencyStreak (s : StreakState) (tasks : List Task)
    (completions : List CompletionLog) (D : Nat) :
    (updateStreakState s tasks completions D).streaks.consistencyStreak
      = (consistencyUpdate s (graceAfterReset s D) (isConsistentDay tasks completions D) D).streak := rfl

theorem updateStreakState_lastConsistencyDate (s : StreakState) (tasks : List Task)
    (completions : List CompletionLog) (D : Nat) :
    (updateStreakState s tasks completions D).streaks.lastConsistencyDate
      = (consistencyUpdate s (graceAfterReset s D) (isConsistentDay tasks completions D) D).lastDate := rfl

theorem updateStreakState_grace (s : StreakState) (tasks : List Task)
    (completions : List CompletionLog) (D : Nat) :
    (updateStreakState s tasks completions D).streaks.graceDaysUsedThisWeek
      = graceAfterReset s D := rfl

theorem updateStreakState_graceWeekStart (s : StreakState) (tasks : List Task)
    (completions : List CompletionLog) (D : Nat) :
    (updateStreakState s tasks completions D).streaks.graceDayWeekStart
      = weekStartAfterReset s D := rfl

theorem consistencyUpdate_prompt_eq_isSome (s : StreakState) (g : Nat) (ic : Bool) (d : Nat) :
    (consistencyUpdate s g ic d).prompt = (consistencyUpdate s g ic d).stype.isSome := by
  unfold consistencyUpdate
  (repeat' split) <;> rfl

theorem perfectUpdate_prompt_eq_isSome (s : StreakState) (g : Nat) (ip prompt1 : Bool)
    (stype1 : Option StreakType) (d : Nat) (h : prompt1 = stype1.isSome) :
    (perfectUpdate s g ip prompt1 stype1 d).prompt
      = (perfectUpdate s g ip prompt1 stype1 d).stype.isSome := by
  unfold perfectUpdate
  (repeat' split) <;> simp_all

theorem consistencyUpdate_no_grace (s : StreakState) (g : Nat) (ic : Bool) (d : Nat)
    (hg : 1 ≤ g) :
    (consistencyUpdate s g ic d).prompt = false ∧
    (consistencyUpdate s g ic d).stype = none := by
  unfold consistencyUpdate
  (repeat' split) <;> first | exact ⟨rfl, rfl⟩ | omega

theorem perfectUpdate_no_grace (s : StreakState) (g : Nat) (ip : Bool) (d : Nat)
    (hg : 1 ≤ g) :
    (perfectUpdate s g ip false none d).prompt = false ∧
    (perfectUpdate s g ip false none d).stype = none := by
  unfold perfectUpdate
  (repeat' split) <;> first | exact ⟨rfl, rfl⟩ | omega

theorem perfectUpdate_keep_prompt (s : StreakState) (g : Nat) (ip : Bool)
    (stype1 : Option StreakType) (d : Nat) :
    (perfectUpdate s g ip true stype1 d).prompt = true ∧
    (perfectUpdate s g ip true stype1 d).stype = stype1 := by
  unfold perfectUpdate
  (repeat' split) <;> simp_all

theorem consistencyUpdate_grace_branch (s : StreakState) (g : Nat) (d last : Nat)
    (hlast : s.lastConsistencyDate = some last) (hnext : isNextDay last d = false)
    (hne : last ≠ d) (hg : g < 1) (hstreak : 0 < s.consistencyStreak) :
    consistencyUpdate s g true d
      = ⟨s.consistencyStreak, some d, true, some .consistency⟩ := by
  unfold consistencyUpdate
  simp [hlast, hnext, hne, hg, hstreak]

/-! ### C4 -/

/-- A focus task done on day 10, for the grace-day state scenario. -/
def c4Task : Task :=
  { id := 0, name := "f", kind := .habit, schedule := { type := .daily },
    targetPerDay := 1, createdAt := 0, archived := false, focus := some true }

def c4Comp : CompletionLog := { id := 0, taskId := 0, date := 10, countCompleted := 1 }

/-- A streak state with a live 3-day consistency streak last passed on day 7
and an unused grace budget for the week starting day 7. -/
def c4State : StreakState :=
  { consistencyStreak := 3, lastConsistencyDate := some 7,
    perfectStreak := 0, lastPerfectDate := none,
    graceDaysUsedThisWeek := 0, graceDayWeekStart := some 7,
    bestConsistencyStreak := 3, bestPerfectStreak := 0 }

/-- C4 counterexample: on day 10 (consistent, ≥2-day gap since day 7, grace
available, streak 3) the engine signals the consistency grace prompt but does
NOT leave `lastConsistencyDate` at its prior value — it sets it to day 10. -/
theorem grace_prompt_counterexample :
    isConsistentDay [c4Task] [c4Comp] 10 = true ∧
    c4State.lastConsistencyDate = some 7 ∧
    isNextDay 7 10 = false ∧
    c4State.graceDaysUsedThisWeek = 0 ∧
    0 < c4State.consistencyStreak ∧
    (updateStreakState c4State [c4Task] [c4Comp] 10).showGraceDayPrompt = true ∧
    (updateStreakState c4State [c4Task] [c4Comp] 10).streakType = some .consistency ∧
    (updateStreakState c4State [c4Task] [c4Comp] 10).streaks.lastConsistencyDate = some 10 ∧
    (updateStreakState c4State [c4Task] [c4Comp] 10).streaks.lastConsistencyDate
      ≠ c4State.lastConsistencyDate := by
  decide

/-- C4 amended: when the day is consistent, there is a gap of ≥2 days since
`lastConsistencyDate`, the weekly grace budget is unused and the consistency
streak is positive, `updateStreakState` signals the consistency grace prompt
and keeps `consistencyStreak` at its prior value, but it sets
`lastConsistencyDate` to the evaluated date rather than leaving it
unchanged. -/
theorem grace_prompt_state (s : StreakState) (tasks : List Task)
    (completions : List CompletionLog) (D last : Nat)
    (hcons : isConsistentDay tasks completions D = true)
    (hlast : s.lastConsistencyDate = some last)
    (hnext : isNextDay last D = false) (hne : last ≠ D)
    (hg : s.graceDaysUsedThisWeek < 1) (hstreak : 0 < s.consistencyStreak) :
    (updateStreakState s tasks completions D).showGraceDayPrompt = true ∧
    (updateStreakState s tasks completions D).streakType = some .consistency ∧
    (updateStreakState s tasks completions D).streaks.consistencyStreak = s.consistencyStreak ∧
    (updateStreakState s tasks completions D).streaks.lastConsistencyDate = some D := by
  have hgu : graceAfterReset s D < 1 := by
    unfold graceAfterReset; split <;> omega
  have hc : consistencyUpdate s (graceAfterReset s D) (isConsistentDay tasks completions D) D
      = ⟨s.consistencyStreak, some D, true, some .consistency⟩ := by
    rw [hcons]
    exact consistencyUpdate_grace_branch s _ D last hlast hnext hne hgu hstreak
  have hkeep := perfectUpdate_keep_prompt s (graceAfterReset s D)
    (isPerfectDay tasks completions D) (some .consistency) D
  refine ⟨?_, ?_, ?_, ?_⟩
  · rw [updateStreakState_prompt, hc]
    exact hkeep.1
  · rw [updateStreakState_stype, hc]
    exact hkeep.2
  · rw [updateStreakState_consistencyStreak, hc]
  · rw [updateStreakState_lastConsistencyDate, hc]

/-- C4 amended, instantiated at the concrete scenario. -/
theorem grace_prompt_state_witness :
    (updateStreakState c4State [c4Task] [c4Comp] 10).showGraceDayPrompt = true ∧
    (updateStreakState c4State [c4Task] [c4Comp] 10).streakType = some .consistency ∧
    (updateStreakState c4State [c4Task] [c4Comp] 10).streaks.consistencyStreak
      = c4State.consistencyStreak ∧
    (updateStreakState c4State [c4Task] [c4Comp] 10).streaks.lastConsistencyDate = some 10 :=
  grace_prompt_state c4State [c4Task] [c4Comp] 10 7 (by decide) rfl (by decide) (by decide)
    (by decide) (by decide)

/-! ### C5 -/

/-- C5: `applyGraceDay` increments the weekly budget and keeps the stored
week start; while the stored week start matches the evaluated date's week and
the budget is consumed (≥ 1), `updateStreakState` never signals a grace
prompt and preserves the budget fields; and an evaluation in a different week
resets the budget to 0 (restoring exactly one grace day) and stores the new
week start. -/
theorem graceBudget_weekly (s : StreakState) (ty : StreakType) (dg : Nat)
    (tasks : List Task) (completions : List CompletionLog) (D : Nat) :
    ((applyGraceDay s ty dg).graceDaysUsedThisWeek = s.graceDaysUsedThisWeek + 1 ∧
     (applyGraceDay s ty dg).graceDayWeekStart = s.graceDayWeekStart) ∧
    (1 ≤ s.graceDaysUsedThisWeek → s.graceDayWeekStart = some (getWeekStart D) →
      (updateStreakState s tasks completions D).showGraceDayPrompt = false ∧
      (updateStreakState s tasks completions D).streakType = none ∧
      (updateStreakState s tasks completions D).streaks.graceDaysUsedThisWeek
        = s.graceDaysUsedThisWeek ∧
      (updateStreakState s tasks completions D).streaks.graceDayWeekStart
        = s.graceDayWeekStart) ∧
    (s.graceDayWeekStart ≠ some (getWeekStart D) →
      (updateStreakState s tasks completions D).streaks.graceDaysUsedThisWeek = 0 ∧
      (updateStreakState s tasks completions D).streaks.graceDayWeekStart
        = some (getWeekStart D)) := by
  refine ⟨⟨rfl, rfl⟩, ?_, ?_⟩
  · intro hg hw
    have hgu : graceAfterReset s D = s.graceDaysUsedThisWeek := by
      unfold graceAfterReset; simp [hw]
    have hgu1 : 1 ≤ graceAfterReset s D := by omega
    have hc := consistencyUpdate_no_grace s (graceAfterReset s D)
      (isConsistentDay tasks completions D) D hgu1
    have hp := perfectUpdate_no_grace s (graceAfterReset s D)
      (isPerfectDay tasks completions D) D hgu1
    refine ⟨?_, ?_, ?_, ?_⟩
    · rw [updateStreakState_prompt, hc.1, hc.2]
      exact hp.1
    · rw [updateStreakState_stype, hc.1, hc.2]
      exact hp.2
    · rw [updateStreakState_grace, hgu]
    · rw [updateStreakState_graceWeekStart]
      unfold weekStartAfterReset; simp [hw]
  · intro hw
    constructor
    · rw [updateStreakState_grace]
      unfold graceAfterReset; simp [hw]
    · rw [updateStreakState_graceWeekStart]
      unfold weekStartAfterReset; simp [hw]

/-- A streak state whose grace day for the week starting day 7 is consumed. -/
def c5UsedState : StreakState :=
  { consistencyStreak := 2, lastConsistencyDate := some 7,
    perfectStreak := 0, lastPerfectDate := none,
    graceDaysUsedThisWeek := 1, graceDayWeekStart := some 7,
    bestConsistencyStreak := 2, bestPerfectStreak := 0 }

/-- A streak state whose stored grace week (day 0) differs from day 10's week. -/
def c5StaleState : StreakState :=
  { c5UsedState with graceDayWeekStart := some 0 }

/-- C5 instantiated: with the budget consumed, a same-week (day 10, week
start 7) evaluation shows no prompt and keeps the budget; a new-week
evaluation resets the budget to 0 and stores week start 7. -/
theorem graceBudget_weekly_witness :
    ((updateStreakState c5UsedState [] [] 10).showGraceDayPrompt = false ∧
     (updateStreakState c5UsedState [] [] 10).streakType = none ∧
     (updateStreakState c5UsedState [] [] 10).streaks.graceDaysUsedThisWeek = 1 ∧
     (updateStreakState c5UsedState [] [] 10).streaks.graceDayWeekStart = some 7) ∧
    ((updateStreakState c5StaleState [] [] 10).streaks.graceDaysUsedThisWeek = 0 ∧
     (updateStreakState c5StaleState [] [] 10).streaks.graceDayWeekStart = some 7) :=
  ⟨(graceBudget_weekly c5UsedState .consistency 0 [] [] 10).2.1 (by decide) (by decide),
   (graceBudget_weekly c5StaleState .consistency 0 [] [] 10).2.2 (by decide)⟩

/-! ### C10 -/

/-- C10: a single `updateStreakState` evaluation signals at most one grace
prompt — `streakType` is non-null exactly when `showGraceDayPrompt` is true —
and when both the consistency streak and the perfect streak simultaneously
have a bridgeable gap, the consistency prompt takes precedence. -/
theorem grace_prompt_unique (s : StreakState) (tasks : List Task)
    (completions : List CompletionLog) (D : Nat) :
    ((updateStreakState s tasks completions D).showGraceDayPrompt
        = (updateStreakState s tasks completions D).streakType.isSome) ∧
    (∀ lc lp : Nat,
      isConsistentDay tasks completions D = true →
      s.lastConsistencyDate = some lc → isNextDay lc D = false → lc ≠ D →
      s.graceDaysUsedThisWeek < 1 → 0 < s.consistencyStreak →
      isPerfectDay tasks completions D = false →
      s.lastPerfectDate = some lp → isNextDay lp D = false → lp ≠ D →
      0 < s.perfectStreak →
      (updateStreakState s tasks completions D).showGraceDayPrompt = true ∧
      (updateStreakState s tasks completions D).streakType = some .consistency) := by
  constructor
  · rw [updateStreakState_prompt, updateStreakState_stype]
    exact perfectUpdate_prompt_eq_isSome s _ _ _ _ D
      (consistencyUpdate_prompt_eq_isSome s _ _ D)
  · intro lc lp hcons hlast hnext hne hg hstreak _ _ _ _ _
    exact ⟨(grace_prompt_state s tasks completions D lc hcons hlast hnext hne hg hstreak).1,
           (grace_prompt_state s tasks completions D lc hcons hlast hnext hne hg hstreak).2.1⟩

/-- A focus task (done on day 10) and a plain task (not done), so that day 10
is consistent but not perfect. -/
def c10Focus : Task :=
  { id := 0, name := "f", kind := .habit, schedule := { type := .daily },
    targetPerDay := 1, createdAt := 0, archived := false, focus := some true }

def c10Plain : Task :=
  { id := 1, name := "p", kind := .habit, schedule := { type := .daily },
    targetPerDay := 1, createdAt := 0, archived := false }

def c10Comp : CompletionLog := { id := 0, taskId := 0, date := 10, countCompleted := 1 }

/-- A state where both streaks last passed on day 7 and the grace budget is
unused, so both streaks have a bridgeable gap on day 10. -/
def c10State : StreakState :=
  { consistencyStreak := 2, lastConsistencyDate := some 7,
    perfectStreak := 3, lastPerfectDate := some 7,
    graceDaysUsedThisWeek := 0, graceDayWeekStart := some 7,
    bestConsistencyStreak := 2, bestPerfectStreak := 3 }

/-- C10 instantiated: with both streaks gapped and bridgeable on day 10, the
consistency prompt wins. -/
theorem grace_prompt_unique_witness :
    (updateStreakState c10State [c10Focus, c10Plain] [c10Comp] 10).showGraceDayPrompt = true ∧
    (updateStreakState c10State [c10Focus, c10Plain] [c10Comp] 10).streakType
      = some .consistency :=
  (grace_prompt_unique c10State [c10Focus, c10Plain] [c10Comp] 10).2 7 7 (by decide) rfl
    (by decide) (by decide) (by decide) (by decide) (by decide) rfl (by decide) (by decide)
    (by decide)

/-! ### C7 -/

/-- The composite sort key of the claim: focus rank (focus first), then the
unclamped remaining count, then chore rank (chores first). -/
def nbaKey (completions : List CompletionLog) (date : Nat) (t : Task) : Nat × Int × Nat :=
  ((if t.isFocus then 0 else 1),
   remainingCount completions t date,
   (if t.kind = .chore then 0 else 1))

/-- Lexicographic less-or-equal on composite keys. -/
def keyLe (a b : Nat × Int × Nat) : Bool :=
  decide (a.1 < b.1) ||
    (decide (a.1 = b.1) &&
      (decide (a.2.1 < b.2.1) || (decide (a.2.1 = b.2.1) && decide (a.2.2 ≤ b.2.2))))

/-- The first element of a list attaining the `keyLe`-minimal key (ties keep
the earlier element) — the claim's characterization of the sort result. -/
def firstMinBy (key : Task → Nat × Int × Nat) : List Task → Option Task
  | [] => none
  | x :: xs =>
      match firstMinBy key xs with
      | none => some x
      | some m => if keyLe (key x) (key m) then some x else some m

theorem keyLe_refl (a : Nat × Int × Nat) : keyLe a a = true := by
  obtain ⟨a1, a2, a3⟩ := a
  simp [keyLe]

theorem keyLe_total (a b : Nat × Int × Nat) : keyLe a b = true ∨ keyLe b a = true := by
  unfold keyLe
  simp only [Bool.or_eq_true, Bool.and_eq_true, decide_eq_true_eq]
  omega

theorem keyLe_trans (a b c : Nat × Int × Nat) (hab : keyLe a b = true)
    (hbc : keyLe b c = true) : keyLe a c = true := by
  unfold keyLe at hab hbc ⊢
  simp only [Bool.or_eq_true, Bool.and_eq_true, decide_eq_true_eq] at hab hbc ⊢
  omega

/-- The comparator of `getNextBestAction` agrees with the lexicographic order
on composite keys. -/
theorem nbaCompare_le_eq_keyLe (completions : List CompletionLog) (date : Nat) (a b : Task) :
    decide (nbaCompare completions date a b ≤ 0)
      = keyLe (nbaKey completions date a) (nbaKey completions date b) := by
  unfold nbaCompare nbaKey keyLe
  cases hfa : a.isFocus <;> cases hfb : b.isFocus <;>
    by_cases hr : remainingCount completions a date = remainingCount completions b date <;>
      by_cases hka : a.kind = TaskKind.chore <;>
        by_cases hkb : b.kind = TaskKind.chore <;>
          simp [hfa, hfb, hr, hka, hkb, decide_eq_decide] <;> omega

theorem head_insertSorted (le : α → α → Bool) (x : α) (l : List α) :
    (insertSorted le x l).head?
      = some (match l with | [] => x | y :: _ => if le x y then x else y) := by
  cases l with
  | nil => rfl
  | cons y ys =>
      show (if le x y then x :: y :: ys else y :: insertSorted le x ys).head? = _
      rcases h : le x y <;> simp [h]

theorem firstMinBy_eq_none_iff (key : Task → Nat × Int × Nat) (xs : List Task) :
    firstMinBy key xs = none ↔ xs = [] := by
  cases xs with
  | nil => simp [firstMinBy]
  | cons x xs =>
      show (match firstMinBy key xs with
            | none => some x
            | some m => if keyLe (key x) (key m) then some x else some m) = none
        ↔ x :: xs = []
      rcases firstMinBy key xs with _ | m
      · simp
      · show (if keyLe (key x) (key m) then some x else some m) = none ↔ x :: xs = []
        split <;> simp

/-- The head of the stable sort by the recommender's comparator is the first
key-minimal element. -/
theorem head_jsStableSort_eq_firstMinBy (completions : List CompletionLog) (date : Nat)
    (xs : List Task) :
    (jsStableSort (fun a b => decide (nbaCompare completions date a b ≤ 0)) xs).head?
      = firstMinBy (nbaKey completions date) xs := by
  induction xs with
  | nil => rfl
  | cons x xs ih =>
      show (insertSorted (fun a b => decide (nbaCompare completions date a b ≤ 0)) x
        (jsStableSort (fun a b => decide (nbaCompare completions date a b ≤ 0)) xs)).head? = _
      rw [head_insertSorted]
      rcases h : jsStableSort (fun a b => decide (nbaCompare completions date a b ≤ 0)) xs
        with _ | ⟨y, ys⟩
      · have hn : firstMinBy (nbaKey completions date) xs = none := by
          rw [← ih, h]; rfl
        simp only [firstMinBy, hn]
      · have hs : firstMinBy (nbaKey completions date) xs = some y := by
          rw [← ih, h]; rfl
        simp only [firstMinBy, hs, nbaCompare_le_eq_keyLe]
        split <;> simp

theorem firstMinBy_mem_min (key : Task → Nat × Int × Nat) (xs : List Task) (t : Task)
    (h : firstMinBy key xs = some t) :
    t ∈ xs ∧ ∀ u ∈ xs, keyLe (key t) (key u) = true := by
  induction xs generalizing t with
  | nil => cases h
  | cons x xs ih =>
      simp only [firstMinBy] at h
      rcases hm : firstMinBy key xs with _ | m
      · simp only [hm] at h
        have hxs : xs = [] := (firstMinBy_eq_none_iff key xs).mp hm
        injection h with h'
        subst h'
        subst hxs
        refine ⟨List.mem_singleton.mpr rfl, ?_⟩
        intro u hu
        rw [List.mem_singleton.mp hu]
        exact keyLe_refl _
      · simp only [hm] at h
        obtain ⟨ihmem, ihmin⟩ := ih m hm
        by_cases hle : keyLe (key x) (key m) = true
        · rw [if_pos hle] at h
          injection h with h'
          subst h'
          refine ⟨List.mem_cons_self _ _, ?_⟩
          intro u hu
          rcases List.mem_cons.mp hu with h' | h'
          · rw [h']; exact keyLe_refl _
          · exact keyLe_trans _ _ _ hle (ihmin u h')
        · rw [if_neg hle] at h
          injection h with h'
          subst h'
          refine ⟨List.mem_cons_of_mem _ ihmem, ?_⟩
          intro u hu
          rcases List.mem_cons.mp hu with h' | h'
          · rw [h']
            rcases keyLe_total (key m) (key x) with h2 | h2
            · exact h2
            · exact absurd h2 hle
          · exact ihmin u h'

theorem filter_not_isEmpty_eq_all (p : α → Bool) (l : List α) :
    (l.filter (fun x => !p x)).isEmpty = l.all p := by
  induction l with
  | nil => rfl
  | cons x xs ih => cases h : p x <;> simp [h, ih, List.filter_cons]

/-- C7: `getNextBestAction` returns none exactly when every scheduled task
already meets its target; otherwise it returns the first incomplete scheduled
task under the ascending composite order (focus first, fewer remaining
completions, chore-kind first, ties by original collection order), which is a
key-minimal member of the incomplete list. -/
theorem getNextBestAction_ok (tasks : List Task) (completions : List CompletionLog) (d : Nat) :
    ((getNextBestAction tasks completions d).isNone
        = (getScheduledTasksForDate tasks d).all (fun t => taskCompleteOn completions t d)) ∧
    (getNextBestAction tasks completions d
        = firstMinBy (nbaKey completions d)
            ((getScheduledTasksForDate tasks d).filter
              (fun t => !(taskCompleteOn completions t d)))) ∧
    (∀ t, getNextBestAction tasks completions d = some t →
      t ∈ (getScheduledTasksForDate tasks d).filter (fun u => !(taskCompleteOn completions u d)) ∧
      ∀ u ∈ (getScheduledTasksForDate tasks d).filter (fun u => !(taskCompleteOn completions u d)),
        keyLe (nbaKey completions d t) (nbaKey completions d u) = true) := by
  have heq : getNextBestAction tasks completions d
      = firstMinBy (nbaKey completions d)
          ((getScheduledTasksForDate tasks d).filter
            (fun t => !(taskCompleteOn completions t d))) := by
    show (if ((getScheduledTasksForDate tasks d).filter
            (fun t => !(taskCompleteOn completions t d))).isEmpty then none
          else (jsStableSort (fun a b => decide (nbaCompare completions d a b ≤ 0))
            ((getScheduledTasksForDate tasks d).filter
              (fun t => !(taskCompleteOn completions t d)))).head?) = _
    rcases h : (getScheduledTasksForDate tasks d).filter
        (fun t => !(taskCompleteOn completions t d)) with _ | ⟨x, xs⟩
    · rfl
    · rw [if_neg (by simp)]
      exact head_jsStableSort_eq_firstMinBy completions d (x :: xs)
  refine ⟨?_, heq, ?_⟩
  · rw [heq, ← filter_not_isEmpty_eq_all]
    rcases h : (getScheduledTasksForDate tasks d).filter
        (fun t => !(taskCompleteOn completions t d)) with _ | ⟨x, xs⟩
    · rfl
    · rcases hm : firstMinBy (nbaKey completions d) (x :: xs) with _ | m
      · exact absurd ((firstMinBy_eq_none_iff _ _).mp hm) (by simp)
      · simp [hm]
  · intro t ht
    rw [heq] at ht
    exact firstMinBy_mem_min _ _ t ht

/-- An incomplete non-focus task with only 1 remaining completion. -/
def nbaPlain : Task :=
  { id := 1, name := "p", kind := .habit, schedule := { type := .daily },
    targetPerDay := 1, createdAt := 0, archived := false }

/-- An incomplete focus task with 3 remaining completions. -/
def nbaFocus : Task :=
  { id := 2, name := "f", kind := .habit, schedule := { type := .daily },
    targetPerDay := 3, createdAt := 0, archived := false, focus := some true }

/-- C7 instantiated: with one incomplete focus task and one incomplete
non-focus task, the focus task is returned even though the non-focus task has
fewer remaining completions and comes first in the collection. -/
theorem getNextBestAction_ok_witness :
    getNextBestAction [nbaPlain, nbaFocus] [] 0 = some nbaFocus ∧
    keyLe (nbaKey [] 0 nbaFocus) (nbaKey [] 0 nbaPlain) = true := by
  have h : getNextBestAction [nbaPlain, nbaFocus] [] 0 = some nbaFocus := by decide
  refine ⟨h, ?_⟩
  exact ((getNextBestAction_ok [nbaPlain, nbaFocus] [] 0).2.2 nbaFocus h).2 nbaPlain (by decide)

end Momentum
